import Mathlib

/-!
Verification of the voxel-open-world core against its source.

The development shallowly embeds the TypeScript sources:
numbers used as integers become Int or Nat, numbers that may be
fractional (configuration radii) become Rat, JS Map objects become
insertion-ordered association lists, and fallible functions return
Except. Each section names the source file it embeds.
-/

set_option maxRecDepth 20000

namespace VoxelWorld

/-! ### Decimal printing and parsing of chunk keys

Models the JS template literal (canonical decimal rendering of an
integer) and the parseChunkKey helper in src/engine/chunkManager.ts,
which splits the key at the comma and applies Number(). -/

def digitChar (n : ℕ) : Char := Char.ofNat (48 + n % 10)

def natDecimalAux : ℕ → ℕ → List Char
  | 0, _ => []
  | fuel + 1, n =>
    if n < 10 then [digitChar n]
    else natDecimalAux fuel (n / 10) ++ [digitChar (n % 10)]

/-- Canonical decimal digits of a natural number, most significant first. -/
def natDecimal (n : ℕ) : List Char := natDecimalAux (n + 1) n

/-- Canonical decimal rendering of an integer, with a leading minus sign
for negatives, as produced by a JS template literal. -/
def intDecimal (i : ℤ) : List Char :=
  if i < 0 then Char.ofNat 45 :: natDecimal i.natAbs else natDecimal i.toNat

/-- chunkKey from src/lib/chunkMath.ts: the string cx comma cz. -/
def chunkKey (cx cz : ℤ) : String :=
  String.mk (intDecimal cx ++ Char.ofNat 44 :: intDecimal cz)

def breakAtComma : List Char → List Char × List Char
  | [] => ([], [])
  | c :: cs =>
    if c = Char.ofNat 44 then ([], cs)
    else
      let p := breakAtComma cs
      (c :: p.1, p.2)

def parseDigits (cs : List Char) : ℕ :=
  cs.foldl (fun acc c => acc * 10 + (c.toNat - 48)) 0

def parseIntChars : List Char → ℤ
  | [] => 0
  | c :: cs =>
    if c = Char.ofNat 45 then -(parseDigits cs : ℤ) else (parseDigits (c :: cs) : ℤ)

/-- parseChunkKey from src/engine/chunkManager.ts: split the key at the
comma and read both halves back as integers. -/
def parseChunkKey (key : String) : ℤ × ℤ :=
  let p := breakAtComma key.data
  (parseIntChars p.1, parseIntChars p.2)

/-! ### seedToInt from src/lib/seed.ts

FNV-1a over the UTF-8 bytes of the seed string; Math.imul followed by
an unsigned shift is multiplication modulo 2 to the 32. -/

def utf8Bytes (c : Char) : List ℕ :=
  let n := c.toNat
  if n < 128 then [n]
  else if n < 2048 then [192 + n / 64, 128 + n % 64]
  else if n < 65536 then [224 + n / 4096, 128 + (n / 64) % 64, 128 + n % 64]
  else [240 + n / 262144, 128 + (n / 4096) % 64, 128 + (n / 64) % 64, 128 + n % 64]

def seedToInt (s : String) : ℕ :=
  ((s.data.map utf8Bytes).flatten).foldl
    (fun hash b => ((hash ^^^ b) * 16777619) % 4294967296) 2166136261

/-! ### src/lib/chunkMath.ts

Integer arguments are embedded as Int; for integer a and positive b the
JS expression Math.floor(a / b) is exactly floor division Int.fdiv. -/

def floorDiv (a b : ℤ) : Except String ℤ :=
  if b ≤ 0 then Except.error "floorDiv requires b > 0" else Except.ok (Int.fdiv a b)

def floorMod (a b : ℤ) : Except String ℤ :=
  if b ≤ 0 then Except.error "floorMod requires b > 0"
  else Except.ok (a - Int.fdiv a b * b)

structure ChunkCoord where
  chunk : ℤ
  localPart : ℤ
deriving DecidableEq, Repr

def worldToChunk (x chunkSize : ℤ) : Except String ChunkCoord :=
  if chunkSize ≤ 0 then Except.error "worldToChunk requires chunkSize > 0"
  else Except.ok ⟨Int.fdiv x chunkSize, x - Int.fdiv x chunkSize * chunkSize⟩

/-- Math.floor on a general JS number, embedded as a rational. For a
rational in lowest terms with positive denominator this floor is the
floor division of numerator by denominator. -/
def jsFloor (q : ℚ) : ℤ := Int.fdiv q.num q.den

theorem jsFloor_eq_floor (q : ℚ) : jsFloor q = ⌊q⌋ := by
  rw [jsFloor, Rat.floor_def, Int.fdiv_eq_ediv _ (by positivity)]

theorem fdiv_bounds (a b : ℤ) (hb : 0 < b) :
    0 ≤ a - Int.fdiv a b * b ∧ a - Int.fdiv a b * b < b := by
  have h1 := Int.fdiv_add_fmod a b
  have h2 : 0 ≤ a.fmod b := Int.fmod_nonneg' a hb
  have h3 : a.fmod b < b := Int.fmod_lt_of_pos a hb
  rw [Int.mul_comm] at h1
  omega

/-- Claim C5: for all integers a and b with b positive, floorDiv and
floorMod succeed and satisfy the Euclidean identity floorDiv(a,b)*b +
floorMod(a,b) = a with 0 ≤ floorMod(a,b) < b; moreover worldToChunk(-1, 16)
yields chunk -1 with local coordinate 15. -/
theorem floorDiv_floorMod_euclidean (a b : ℤ) (hb : 0 < b) :
    ∃ q r : ℤ, floorDiv a b = Except.ok q ∧ floorMod a b = Except.ok r ∧
      q * b + r = a ∧ 0 ≤ r ∧ r < b ∧
      worldToChunk (-1) 16 = Except.ok ⟨-1, 15⟩ := by
  refine ⟨Int.fdiv a b, a - Int.fdiv a b * b, ?_, ?_, by ring, (fdiv_bounds a b hb).1,
    (fdiv_bounds a b hb).2, rfl⟩
  · simp [floorDiv, not_le.mpr hb]
  · simp [floorMod, not_le.mpr hb]

/-- Witness for C5 at a = -1, b = 16. -/
theorem floorDiv_floorMod_euclidean_witness :
    ∃ q r : ℤ, floorDiv (-1) 16 = Except.ok q ∧ floorMod (-1) 16 = Except.ok r ∧
      q * 16 + r = -1 ∧ 0 ≤ r ∧ r < 16 ∧
      worldToChunk (-1) 16 = Except.ok ⟨-1, 15⟩ :=
  floorDiv_floorMod_euclidean (-1) 16 (by decide)

/-! ### src/engine/chunkManager.ts — data model

JS Map objects are embedded as insertion-ordered association lists:
set replaces the value in place for an existing key and appends
otherwise, delete removes every entry with the key (keys are unique in
every reachable state), and iteration order is list order. -/

abbrev EMap (α : Type) : Type := List (String × α)

def mapHas {α : Type} : EMap α → String → Bool
  | [], _ => false
  | e :: rest, k => if e.1 = k then true else mapHas rest k

def mapSet {α : Type} : EMap α → String → α → EMap α
  | [], k, v => [(k, v)]
  | e :: rest, k, v => if e.1 = k then (k, v) :: rest else e :: mapSet rest k v

def mapDelete {α : Type} : EMap α → String → EMap α
  | [], _ => []
  | e :: rest, k => if e.1 = k then mapDelete rest k else e :: mapDelete rest k

def mapKeys {α : Type} (m : EMap α) : List String := m.map Prod.fst

structure MeshWorkerRequest where
  seedStr : String
  seedInt : ℕ
  cx : ℤ
  cz : ℤ
deriving DecidableEq, Repr

/-- MeshWorkerResponse: the MeshChunkPayload fields plus the echoed
forceApply flag. Numeric buffer entries are embedded as rationals and
index entries as naturals; the chunk manager never inspects them. -/
structure MeshWorkerResponse where
  key : String
  cx : ℤ
  cz : ℤ
  positions : List ℚ
  normals : List ℚ
  colors : List ℚ
  indices : List ℕ
  quadCount : ℕ
  indexCount : ℕ
  forceApply : Option Bool
deriving DecidableEq

def chebyshevDistance (cx cz centerCx centerCz : ℤ) : ℕ :=
  max (cx - centerCx).natAbs (cz - centerCz).natAbs

def isInRadius (cx cz centerCx centerCz : ℤ) (radius : ℕ) : Bool :=
  chebyshevDistance cx cz centerCx centerCz ≤ radius

/-- The dz-outer, dx-inner offset enumeration of the needed square. -/
def offsetList (radius : ℕ) : List ℤ :=
  (List.range (2 * radius + 1)).map (fun i : ℕ => (i : ℤ) - radius)

def neededCoords (centerCx centerCz : ℤ) (radius : ℕ) : List (ℤ × ℤ) :=
  ((offsetList radius).map (fun dz =>
    (offsetList radius).map (fun dx => (centerCx + dx, centerCz + dz)))).flatten

/-- The comparator passed to Array.prototype.sort: ascending Chebyshev
distance from the center, then ascending cz, then ascending cx. -/
def coordCompare (centerCx centerCz : ℤ) (a b : ℤ × ℤ) : ℤ :=
  let aD : ℤ := chebyshevDistance a.1 a.2 centerCx centerCz
  let bD : ℤ := chebyshevDistance b.1 b.2 centerCx centerCz
  if aD ≠ bD then aD - bD
  else if a.2 ≠ b.2 then a.2 - b.2
  else a.1 - b.1

/-- computeNeededChunkKeys with the radius already clamped to a natural
number. Array.prototype.sort is a stable sort consistent with the
comparator, which insertion sort reproduces exactly. -/
def computeNeededChunkKeysNat (centerCx centerCz : ℤ) (radius : ℕ) : List String :=
  ((neededCoords centerCx centerCz radius).insertionSort
    (fun a b => coordCompare centerCx centerCz a b ≤ 0)).map
    (fun c => chunkKey c.1 c.2)

/-- computeNeededChunkKeys from src/engine/chunkManager.ts: clamps the
given radius with Math.max(0, Math.floor(activeRadius)). -/
def computeNeededChunkKeys (centerCx centerCz : ℤ) (activeRadius : ℚ) : List String :=
  computeNeededChunkKeysNat centerCx centerCz (max 0 (jsFloor activeRadius)).toNat

def DEFAULT_ACTIVE_RADIUS : ℚ := 4

def DEFAULT_REMOVE_RADIUS : ℚ := 6

structure CMState where
  activeRadius : ℕ
  removeRadius : ℕ
  loaded : EMap MeshWorkerResponse
  inflight : EMap MeshWorkerRequest
  queued : EMap MeshWorkerRequest
  readyToApply : EMap MeshWorkerResponse
  seedStr : Option String
  seedInt : Option ℕ
deriving DecidableEq

/-- The ChunkManager constructor. The options object has exactly the
fields activeRadius and removeRadius (a maxInflight property passed by
a caller is not part of the type and is ignored at run time). Each
radius is clamped with Math.max(0, Math.floor(...)); construction
throws exactly when the clamped removeRadius is below the clamped
activeRadius. -/
def clampRadius (q : ℚ) : ℕ := (max 0 (jsFloor q)).toNat

def mkChunkManager (activeRadiusOpt removeRadiusOpt : Option ℚ) : Except String CMState :=
  if clampRadius (removeRadiusOpt.getD DEFAULT_REMOVE_RADIUS) <
      clampRadius (activeRadiusOpt.getD DEFAULT_ACTIVE_RADIUS) then
    Except.error "removeRadius must be >= activeRadius"
  else
    Except.ok ⟨clampRadius (activeRadiusOpt.getD DEFAULT_ACTIVE_RADIUS),
      clampRadius (removeRadiusOpt.getD DEFAULT_REMOVE_RADIUS), [], [], [], [], none, none⟩

/-! ### src/engine/chunkManager.ts — operations -/

/-- Modelled from the spec: src/src/world/chunkConstants.ts is imported
by the manager but absent from src; section 8 of the spec fixes the
chunk size at 16 in every end-to-end example. -/
def CHUNK_SIZE : ℤ := 16

structure TickParams where
  playerX : ℤ
  playerZ : ℤ
  seedStr : String
  workerResponses : List MeshWorkerResponse
deriving DecidableEq

structure TickResult where
  request : Option MeshWorkerRequest
  apply : Option MeshWorkerResponse
  unloadKeys : List String
deriving DecidableEq

structure ChunkManagerStats where
  loaded : ℕ
  queued : ℕ
  inflight : ℕ
  ready : ℕ
deriving DecidableEq, Repr

def getStats (s : CMState) : ChunkManagerStats :=
  ⟨s.loaded.length, s.queued.length, s.inflight.length, s.readyToApply.length⟩

def handleWorkerResponse (s : CMState) (response : MeshWorkerResponse) : CMState :=
  let key := chunkKey response.cx response.cz
  if mapHas s.inflight key then
    { s with inflight := mapDelete s.inflight key,
             readyToApply := mapSet s.readyToApply key response }
  else s

def resetForSeedIfNeeded (s : CMState) (seedStr : String) : CMState × List String :=
  if s.seedStr = some seedStr then (s, [])
  else
    ({ s with loaded := [], inflight := [], queued := [], readyToApply := [],
              seedStr := some seedStr, seedInt := some (seedToInt seedStr) },
     mapKeys s.loaded)

def keyInRadius (key : String) (centerCx centerCz : ℤ) (radius : ℕ) : Bool :=
  isInRadius (parseChunkKey key).1 (parseChunkKey key).2 centerCx centerCz radius

def pruneOutsideRemoveRadius {α : Type} (m : EMap α) (centerCx centerCz : ℤ)
    (radius : ℕ) : EMap α :=
  m.filter (fun e => keyInRadius e.1 centerCx centerCz radius)

/-- Iterates loaded, deleting every entry outside removeRadius and
pushing its key onto the unload list, in iteration order. -/
def unloadOutsideRemoveRadius (m : EMap MeshWorkerResponse) (centerCx centerCz : ℤ)
    (radius : ℕ) : EMap MeshWorkerResponse × List String :=
  (m.filter (fun e => keyInRadius e.1 centerCx centerCz radius),
   (m.filter (fun e => !keyInRadius e.1 centerCx centerCz radius)).map Prod.fst)

/-- One step of the insertion of needed keys into queued: skip keys
already tracked in any of the four mappings, otherwise append a request
built from the parsed key. -/
def refreshStep (s : CMState) (seedStr : String) (seedInt : ℕ)
    (q : EMap MeshWorkerRequest) (k : String) : EMap MeshWorkerRequest :=
  if mapHas s.loaded k || mapHas s.inflight k || mapHas q k || mapHas s.readyToApply k
  then q
  else q ++ [(k, ⟨seedStr, seedInt, (parseChunkKey k).1, (parseChunkKey k).2⟩)]

/-- Insertion-order deduplication, the semantics of building a JS Set
from an array (the needed keys are in fact pairwise distinct). -/
def insertionOrderDedup (l : List String) : List String :=
  l.foldl (fun acc k => if k ∈ acc then acc else acc ++ [k]) []

def refreshQueue (s : CMState) (centerCx centerCz : ℤ) : CMState :=
  match s.seedStr, s.seedInt with
  | some seedStr, some seedInt =>
    let needed := insertionOrderDedup
      (computeNeededChunkKeys centerCx centerCz (s.activeRadius : ℚ))
    let q1 := s.queued.filter (fun e => needed.contains e.1)
    { s with queued := needed.foldl (refreshStep s seedStr seedInt) q1 }
  | _, _ => s

def dequeueRequest (s : CMState) : CMState × Option MeshWorkerRequest :=
  match s.queued with
  | [] => (s, none)
  | (k, request) :: _ =>
    ({ s with queued := mapDelete s.queued k, inflight := mapSet s.inflight k request },
     some request)

/-- Accumulator of the readyToApply scan: the entries kept (those inside
removeRadius, in order) and the best candidate so far with its distance
and parsed coordinates. -/
structure ApplyScan where
  kept : EMap MeshWorkerResponse
  best : Option (String × MeshWorkerResponse × ℕ × ℤ × ℤ)

/-- The candidate record for an entry of readyToApply: its key, its
response, its Chebyshev distance to the center and its parsed chunk
coordinates. -/
def scanCandidate (centerCx centerCz : ℤ) (e : String × MeshWorkerResponse) :
    String × MeshWorkerResponse × ℕ × ℤ × ℤ :=
  (e.1, e.2, chebyshevDistance (parseChunkKey e.1).1 (parseChunkKey e.1).2 centerCx centerCz,
    (parseChunkKey e.1).1, (parseChunkKey e.1).2)

/-- One step of the readyToApply iteration: entries outside removeRadius
are deleted (not kept); an entry inside becomes the best candidate when
there is none yet (the initial bestDistance is infinite) or when it wins
the distance-then-cz-then-cx comparison of the source. -/
def applyScanStep (centerCx centerCz : ℤ) (radius : ℕ) :
    ApplyScan → String × MeshWorkerResponse → ApplyScan
  | ⟨kept, none⟩, e =>
    if isInRadius (parseChunkKey e.1).1 (parseChunkKey e.1).2 centerCx centerCz radius then
      ⟨kept ++ [e], some (scanCandidate centerCx centerCz e)⟩
    else ⟨kept, none⟩
  | ⟨kept, some (bk, br, bestDistance, bestCx, bestCz)⟩, e =>
    if isInRadius (parseChunkKey e.1).1 (parseChunkKey e.1).2 centerCx centerCz radius then
      if chebyshevDistance (parseChunkKey e.1).1 (parseChunkKey e.1).2 centerCx centerCz <
            bestDistance ∨
          (chebyshevDistance (parseChunkKey e.1).1 (parseChunkKey e.1).2 centerCx centerCz =
            bestDistance ∧
            ((parseChunkKey e.1).2 < bestCz ∨
              ((parseChunkKey e.1).2 = bestCz ∧ (parseChunkKey e.1).1 < bestCx))) then
        ⟨kept ++ [e], some (scanCandidate centerCx centerCz e)⟩
      else ⟨kept ++ [e], some (bk, br, bestDistance, bestCx, bestCz)⟩
    else ⟨kept, some (bk, br, bestDistance, bestCx, bestCz)⟩

def dequeueApplyFinish (s : CMState) : ApplyScan → CMState × Option MeshWorkerResponse
  | ⟨kept, some (bk, br, _, _, _)⟩ =>
    ({ s with readyToApply := mapDelete kept bk,
              loaded := mapSet s.loaded bk br }, some br)
  | ⟨kept, none⟩ => ({ s with readyToApply := kept }, none)

def dequeueApply (s : CMState) (centerCx centerCz : ℤ) :
    CMState × Option MeshWorkerResponse :=
  dequeueApplyFinish s
    (s.readyToApply.foldl (applyScanStep centerCx centerCz s.removeRadius) ⟨[], none⟩)

/-- The center chunk coordinate of a tick: worldToChunk of the player
position with CHUNK_SIZE = 16 (positive, so the guard never fires). -/
def tickCenter (p : TickParams) : ℤ × ℤ :=
  (Int.fdiv p.playerX CHUNK_SIZE, Int.fdiv p.playerZ CHUNK_SIZE)

def tick (s : CMState) (p : TickParams) : CMState × TickResult :=
  let r1 := resetForSeedIfNeeded s p.seedStr
  let s2 := p.workerResponses.foldl handleWorkerResponse r1.1
  let ccx := (tickCenter p).1
  let ccz := (tickCenter p).2
  let s3 := { s2 with
    queued := pruneOutsideRemoveRadius s2.queued ccx ccz s2.removeRadius,
    inflight := pruneOutsideRemoveRadius s2.inflight ccx ccz s2.removeRadius,
    readyToApply := pruneOutsideRemoveRadius s2.readyToApply ccx ccz s2.removeRadius }
  let u := unloadOutsideRemoveRadius s3.loaded ccx ccz s3.removeRadius
  let s4 := { s3 with loaded := u.1 }
  let s5 := refreshQueue s4 ccx ccz
  let r6 := dequeueRequest s5
  let r7 := dequeueApply r6.1 ccx ccz
  (r7.1, ⟨r6.2, r7.2, r1.2 ++ u.2⟩)

/-! ### Association-list map lemmas -/

theorem mem_mapKeys_cons {α : Type} (e : String × α) (rest : EMap α) (k : String) :
    k ∈ mapKeys (e :: rest) ↔ k = e.1 ∨ k ∈ mapKeys rest := by
  rw [mapKeys, List.map_cons, List.mem_cons, mapKeys]

theorem mem_mapKeys_mapSet {α : Type} (m : EMap α) (k k1 : String) (v : α) :
    k1 ∈ mapKeys (mapSet m k v) ↔ k1 = k ∨ k1 ∈ mapKeys m := by
  induction m with
  | nil => simp [mapSet, mapKeys]
  | cons e rest ih =>
    rw [mapSet]
    by_cases h : e.1 = k
    · rw [if_pos h]
      subst h
      rw [mem_mapKeys_cons, mem_mapKeys_cons]
      tauto
    · rw [if_neg h, mem_mapKeys_cons, mem_mapKeys_cons, ih]
      tauto

theorem mem_mapKeys_filter {α : Type} (m : EMap α) (f : String → Bool) (k : String) :
    k ∈ mapKeys (m.filter (fun e => f e.1)) ↔ k ∈ mapKeys m ∧ f k = true := by
  induction m with
  | nil => simp [mapKeys]
  | cons e rest ih =>
    rw [List.filter_cons]
    by_cases h : f e.1 = true
    · rw [if_pos h, mem_mapKeys_cons, mem_mapKeys_cons, ih]
      constructor
      · rintro (rfl | ⟨hm, hf⟩)
        · exact ⟨Or.inl rfl, h⟩
        · exact ⟨Or.inr hm, hf⟩
      · rintro ⟨rfl | hm, hf⟩
        · exact Or.inl rfl
        · exact Or.inr ⟨hm, hf⟩
    · rw [if_neg h, ih, mem_mapKeys_cons]
      constructor
      · rintro ⟨hm, hf⟩
        exact ⟨Or.inr hm, hf⟩
      · rintro ⟨rfl | hm, hf⟩
        · exact absurd hf h
        · exact ⟨hm, hf⟩

theorem count_filterNot_map_fst {α : Type} (m : EMap α) (f : String → Bool) (k : String)
    (hnd : (mapKeys m).Nodup) :
    ((m.filter (fun e => !f e.1)).map Prod.fst).count k =
      if k ∈ mapKeys m ∧ f k = false then 1 else 0 := by
  induction m with
  | nil => simp [mapKeys]
  | cons e rest ih =>
    have hnd' : (mapKeys rest).Nodup ∧ e.1 ∉ mapKeys rest := by
      rw [mapKeys, List.map_cons, List.nodup_cons] at hnd
      exact ⟨hnd.2, hnd.1⟩
    have ih2 := ih hnd'.1
    rw [List.filter_cons]
    by_cases hf : f e.1 = true
    · rw [if_neg (by rw [hf]; simp), ih2]
      by_cases hk : k = e.1
      · rw [if_neg, if_neg]
        · rintro ⟨_, hfk⟩
          rw [hk, hf] at hfk
          cases hfk
        · rintro ⟨hmem, _⟩
          rw [hk] at hmem
          exact hnd'.2 hmem
      · have hiff : k ∈ mapKeys (e :: rest) ↔ k ∈ mapKeys rest := by
          rw [mem_mapKeys_cons]
          exact ⟨fun h1 => h1.resolve_left hk, Or.inr⟩
        by_cases hc : k ∈ mapKeys rest ∧ f k = false
        · rw [if_pos hc, if_pos ⟨hiff.mpr hc.1, hc.2⟩]
        · rw [if_neg hc, if_neg (fun hc2 => hc ⟨hiff.mp hc2.1, hc2.2⟩)]
    · have hfb : f e.1 = false := by revert hf; cases f e.1 <;> simp
      rw [if_pos (by rw [hfb]; simp), List.map_cons]
      by_cases hk : k = e.1
      · rw [hk] at ih2 ⊢
        rw [List.count_cons_self, ih2,
          if_neg (fun hc => hnd'.2 hc.1),
          if_pos ⟨mem_mapKeys_cons e rest e.1 |>.mpr (Or.inl rfl), hfb⟩]
      · rw [List.count_cons_of_ne hk, ih2]
        have hiff : k ∈ mapKeys (e :: rest) ↔ k ∈ mapKeys rest := by
          rw [mem_mapKeys_cons]
          exact ⟨fun h1 => h1.resolve_left hk, Or.inr⟩
        by_cases hc : k ∈ mapKeys rest ∧ f k = false
        · rw [if_pos hc, if_pos ⟨hiff.mpr hc.1, hc.2⟩]
        · rw [if_neg hc, if_neg (fun hc2 => hc ⟨hiff.mp hc2.1, hc2.2⟩)]

/-! ### Claim C9: constructor clamping and the needed set -/

theorem zero_mem_offsetList (radius : ℕ) : (0 : ℤ) ∈ offsetList radius := by
  have h1 : radius ∈ List.range (2 * radius + 1) := List.mem_range.mpr (by omega)
  have h2 := List.mem_map_of_mem (fun i : ℕ => (i : ℤ) - radius) h1
  rw [offsetList]
  have hbeta : ((radius : ℤ) - (radius : ℤ)) ∈
      (List.range (2 * radius + 1)).map (fun i : ℕ => (i : ℤ) - radius) := h2
  rw [sub_self] at hbeta
  exact hbeta

theorem center_mem_neededCoords (centerCx centerCz : ℤ) (radius : ℕ) :
    (centerCx, centerCz) ∈ neededCoords centerCx centerCz radius := by
  have hrow := List.mem_map_of_mem
    (fun dz => (offsetList radius).map (fun dx => (centerCx + dx, centerCz + dz)))
    (zero_mem_offsetList radius)
  have hel := List.mem_map_of_mem (fun dx => (centerCx + dx, centerCz + (0 : ℤ)))
    (zero_mem_offsetList radius)
  rw [neededCoords]
  refine List.mem_flatten.mpr ⟨_, hrow, ?_⟩
  simpa using hel

/-- Claim C9: the constructor floors each radius and clamps it to a
minimum of 0, succeeding exactly when the clamped removeRadius is at
least the clamped activeRadius (so negative or fractional radii are not
rejected as such); computeNeededChunkKeys applies the same clamp and
always contains the center key. -/
theorem chunkManager_constructor_clamps (activeRadiusOpt removeRadiusOpt : Option ℚ) :
    ((mkChunkManager activeRadiusOpt removeRadiusOpt).isOk = true ↔
      clampRadius (activeRadiusOpt.getD DEFAULT_ACTIVE_RADIUS) ≤
        clampRadius (removeRadiusOpt.getD DEFAULT_REMOVE_RADIUS)) ∧
    (∀ s : CMState, mkChunkManager activeRadiusOpt removeRadiusOpt = Except.ok s →
      s.activeRadius = clampRadius (activeRadiusOpt.getD DEFAULT_ACTIVE_RADIUS) ∧
      s.removeRadius = clampRadius (removeRadiusOpt.getD DEFAULT_REMOVE_RADIUS)) ∧
    (∀ centerCx centerCz : ℤ, ∀ activeRadius : ℚ,
      chunkKey centerCx centerCz ∈ computeNeededChunkKeys centerCx centerCz activeRadius) := by
  refine ⟨?_, ?_, ?_⟩
  · constructor
    · intro hok
      by_contra hlt
      unfold mkChunkManager at hok
      rw [if_pos (by omega)] at hok
      exact Bool.noConfusion hok
    · intro hle
      unfold mkChunkManager
      rw [if_neg (by omega)]
      rfl
  · intro s hs
    unfold mkChunkManager at hs
    split at hs
    · exact absurd hs (by simp)
    · cases hs
      exact ⟨rfl, rfl⟩
  · intro centerCx centerCz activeRadius
    unfold computeNeededChunkKeys computeNeededChunkKeysNat
    refine List.mem_map.mpr ⟨(centerCx, centerCz), ?_, rfl⟩
    exact ((List.perm_insertionSort _ _).mem_iff).mpr
      (center_mem_neededCoords centerCx centerCz _)

/-- Witness for C9 at activeRadius -5/2 (negative and fractional, clamped
to 0) and removeRadius defaulted: construction succeeds. -/
theorem chunkManager_constructor_clamps_witness :
    (mkChunkManager (some (Rat.mk' (-5) 2 (by decide) (by decide))) none).isOk = true :=
  (chunkManager_constructor_clamps (some (Rat.mk' (-5) 2 (by decide) (by decide))) none).1.mpr
    (by decide)

/-! ### Claim C7: stale responses are dropped, inflight responses move -/

/-- Claim C7: a worker response whose chunk key is not inflight leaves
the whole state (all four mappings) unchanged and produces no error;
a response whose key is inflight moves that key from inflight to
readyToApply and touches nothing else. -/
theorem handleWorkerResponse_stale_or_moves (s : CMState) (r : MeshWorkerResponse) :
    (mapHas s.inflight (chunkKey r.cx r.cz) = false → handleWorkerResponse s r = s) ∧
    (mapHas s.inflight (chunkKey r.cx r.cz) = true →
      (handleWorkerResponse s r).queued = s.queued ∧
      (handleWorkerResponse s r).loaded = s.loaded ∧
      (handleWorkerResponse s r).inflight = mapDelete s.inflight (chunkKey r.cx r.cz) ∧
      (handleWorkerResponse s r).readyToApply =
        mapSet s.readyToApply (chunkKey r.cx r.cz) r) := by
  constructor
  · intro h
    simp [handleWorkerResponse, h]
  · intro h
    simp [handleWorkerResponse, h]

def c7State : CMState :=
  ⟨0, 1, [], [("0,0", ⟨"demo", 0, 0, 0⟩)], [], [], some "demo", some 0⟩

def c7Response : MeshWorkerResponse := ⟨"0,0", 0, 0, [], [], [], [], 0, 0, none⟩

/-- Witness for C7: with chunk 0,0 inflight, its response moves it from
inflight to readyToApply. -/
theorem handleWorkerResponse_stale_or_moves_witness :
    (handleWorkerResponse c7State c7Response).inflight =
      mapDelete c7State.inflight (chunkKey c7Response.cx c7Response.cz) ∧
    (handleWorkerResponse c7State c7Response).readyToApply =
      mapSet c7State.readyToApply (chunkKey c7Response.cx c7Response.cz) c7Response := by
  have h := (handleWorkerResponse_stale_or_moves c7State c7Response).2 (by decide)
  exact ⟨h.2.2.1, h.2.2.2⟩

/-! ### Claim C1: the missing maxInflight gate

The repository test file constructs the manager with maxInflight 1 and
asserts that a second tick before the first response yields no request
with the inflight count staying at 1. The implementation has no
maxInflight option and dequeueRequest promotes unconditionally, so the
second tick issues another request and inflight grows to 2. -/

def c1Manager : CMState :=
  (mkChunkManager (some 1) (some 2)).toOption.getD ⟨0, 0, [], [], [], [], none, none⟩

def c1Params : TickParams := ⟨0, 0, "demo", []⟩

def c1AfterOne : CMState × TickResult := tick c1Manager c1Params

def c1AfterTwo : CMState × TickResult := tick c1AfterOne.1 c1Params

/-- Claim C1 divergence: with activeRadius 1, removeRadius 2 and no
worker responses, the first tick leaves one request inflight, and the
second tick issues a further request and the inflight count becomes 2 -
the claimed maxInflight gate does not exist in the implementation. -/
theorem tick_ignores_maxInflight :
    (getStats c1AfterOne.1).inflight = 1 ∧
    c1AfterTwo.2.request ≠ none ∧
    (getStats c1AfterTwo.1).inflight = 2 := by
  refine ⟨by decide, by decide, by decide⟩

/-! ### Claim C6: lifecycle of loaded chunks across ticks -/

theorem handleWorkerResponse_preserves (s : CMState) (r : MeshWorkerResponse) :
    (handleWorkerResponse s r).loaded = s.loaded ∧
    (handleWorkerResponse s r).removeRadius = s.removeRadius := by
  simp only [handleWorkerResponse]
  split <;> exact ⟨rfl, rfl⟩

theorem foldl_handleWorkerResponse_preserves (l : List MeshWorkerResponse) (s : CMState) :
    (l.foldl handleWorkerResponse s).loaded = s.loaded ∧
    (l.foldl handleWorkerResponse s).removeRadius = s.removeRadius := by
  induction l generalizing s with
  | nil => exact ⟨rfl, rfl⟩
  | cons r rest ih =>
    rw [List.foldl_cons]
    refine ⟨?_, ?_⟩
    · rw [(ih (handleWorkerResponse s r)).1, (handleWorkerResponse_preserves s r).1]
    · rw [(ih (handleWorkerResponse s r)).2, (handleWorkerResponse_preserves s r).2]

theorem refreshQueue_preserves (s : CMState) (centerCx centerCz : ℤ) :
    (refreshQueue s centerCx centerCz).loaded = s.loaded ∧
    (refreshQueue s centerCx centerCz).removeRadius = s.removeRadius := by
  unfold refreshQueue
  split <;> exact ⟨rfl, rfl⟩

theorem dequeueRequest_preserves (s : CMState) :
    (dequeueRequest s).1.loaded = s.loaded ∧
    (dequeueRequest s).1.removeRadius = s.removeRadius := by
  unfold dequeueRequest
  split <;> exact ⟨rfl, rfl⟩

theorem applyScan_foldl_best_inRadius (centerCx centerCz : ℤ) (radius : ℕ)
    (l : EMap MeshWorkerResponse) (acc : ApplyScan)
    (hacc : ∀ bk br bd bx bz, acc.best = some (bk, br, bd, bx, bz) →
      keyInRadius bk centerCx centerCz radius = true) :
    ∀ bk br bd bx bz,
      (l.foldl (applyScanStep centerCx centerCz radius) acc).best = some (bk, br, bd, bx, bz) →
      keyInRadius bk centerCx centerCz radius = true := by
  induction l generalizing acc with
  | nil => exact hacc
  | cons e rest ih =>
    rw [List.foldl_cons]
    refine ih _ ?_
    intro bk br bd bx bz hb
    obtain ⟨kept, best⟩ := acc
    cases best with
    | none =>
      simp only [applyScanStep] at hb
      split at hb
      next hin =>
        cases hb
        unfold keyInRadius
        exact hin
      next hin =>
        exact Option.noConfusion hb
    | some b =>
      obtain ⟨bk0, br0, bd0, bx0, bz0⟩ := b
      simp only [applyScanStep] at hb
      split at hb
      next hin =>
        split at hb
        · cases hb
          unfold keyInRadius
          exact hin
        · cases hb
          exact hacc _ _ _ _ _ rfl
      next hin =>
        cases hb
        exact hacc _ _ _ _ _ rfl

theorem dequeueApply_mem_loaded (s : CMState) (centerCx centerCz : ℤ) (k : String) :
    (k ∈ mapKeys s.loaded → k ∈ mapKeys (dequeueApply s centerCx centerCz).1.loaded) ∧
    (keyInRadius k centerCx centerCz s.removeRadius = false → k ∉ mapKeys s.loaded →
      k ∉ mapKeys (dequeueApply s centerCx centerCz).1.loaded) := by
  unfold dequeueApply
  rcases hscan : s.readyToApply.foldl (applyScanStep centerCx centerCz s.removeRadius)
      ⟨[], none⟩ with ⟨kept, best⟩
  cases best with
  | none => exact ⟨fun h => h, fun _ h => h⟩
  | some b =>
    obtain ⟨bk, br, bd, bx, bz⟩ := b
    simp only [dequeueApplyFinish]
    constructor
    · intro hm
      exact (mem_mapKeys_mapSet s.loaded bk k br).mpr (Or.inr hm)
    · intro hout hnm hmem
      have hbk : keyInRadius bk centerCx centerCz s.removeRadius = true := by
        refine applyScan_foldl_best_inRadius centerCx centerCz s.removeRadius s.readyToApply
          ⟨[], none⟩ (fun _ _ _ _ _ h => Option.noConfusion h) bk br bd bx bz ?_
        rw [hscan]
      rcases (mem_mapKeys_mapSet s.loaded bk k br).mp hmem with rfl | hm2
      · rw [hbk] at hout
        cases hout
      · exact hnm hm2

theorem mem_mapKeys_filter_inR {α : Type} (m : EMap α) (c1 c2 : ℤ) (rad : ℕ) (k : String) :
    k ∈ mapKeys (m.filter (fun e => keyInRadius e.1 c1 c2 rad)) ↔
      k ∈ mapKeys m ∧ keyInRadius k c1 c2 rad = true :=
  mem_mapKeys_filter m (fun key => keyInRadius key c1 c2 rad) k

theorem count_filterNot_inR {α : Type} (m : EMap α) (c1 c2 : ℤ) (rad : ℕ) (k : String)
    (hnd : (mapKeys m).Nodup) :
    ((m.filter (fun e => !keyInRadius e.1 c1 c2 rad)).map Prod.fst).count k =
      if k ∈ mapKeys m ∧ keyInRadius k c1 c2 rad = false then 1 else 0 :=
  count_filterNot_map_fst m (fun key => keyInRadius key c1 c2 rad) k hnd

/-- The loaded mapping and the unload list of a same-seed tick, expressed
through the radius filter on the incoming loaded mapping. -/
theorem tick_loaded_unload_decomp (s : CMState) (p : TickParams)
    (hseed : s.seedStr = some p.seedStr) :
    (tick s p).2.unloadKeys = (s.loaded.filter
      (fun e => !keyInRadius e.1 (tickCenter p).1 (tickCenter p).2 s.removeRadius)).map
        Prod.fst ∧
    ∃ t : CMState,
      (tick s p).1.loaded = (dequeueApply t (tickCenter p).1 (tickCenter p).2).1.loaded ∧
      t.loaded = s.loaded.filter
        (fun e => keyInRadius e.1 (tickCenter p).1 (tickCenter p).2 s.removeRadius) ∧
      t.removeRadius = s.removeRadius := by
  have hreset : resetForSeedIfNeeded s p.seedStr = (s, []) := by
    rw [resetForSeedIfNeeded, if_pos hseed]
  have hf := foldl_handleWorkerResponse_preserves p.workerResponses s
  constructor
  · simp only [tick, hreset, unloadOutsideRemoveRadius, List.nil_append, hf.1, hf.2]
  · refine ⟨_, rfl, ?_, ?_⟩
    · simp only [tick, hreset, unloadOutsideRemoveRadius]
      rw [(dequeueRequest_preserves _).1, (refreshQueue_preserves _ _ _).1]
      simp only [hf.1, hf.2]
    · simp only [tick, hreset, unloadOutsideRemoveRadius]
      rw [(dequeueRequest_preserves _).2, (refreshQueue_preserves _ _ _).2]
      simp only [hf.2]

/-- Claim C6 (amended): on a tick whose seed matches the tracked seed, a
loaded chunk within removeRadius of the new center stays loaded and is
not reported in unloadKeys; a loaded chunk beyond removeRadius leaves
loaded and is reported exactly once; a chunk not in loaded is never
reported, so a chunk is reported exactly once, on the first tick on
which its distance exceeds removeRadius. -/
theorem tick_loaded_lifecycle (s : CMState) (p : TickParams) (k : String)
    (hseed : s.seedStr = some p.seedStr)
    (hnd : (mapKeys s.loaded).Nodup) :
    (k ∈ mapKeys s.loaded →
      chebyshevDistance (parseChunkKey k).1 (parseChunkKey k).2
        (tickCenter p).1 (tickCenter p).2 ≤ s.removeRadius →
      k ∈ mapKeys (tick s p).1.loaded ∧ k ∉ (tick s p).2.unloadKeys) ∧
    (k ∈ mapKeys s.loaded →
      s.removeRadius < chebyshevDistance (parseChunkKey k).1 (parseChunkKey k).2
        (tickCenter p).1 (tickCenter p).2 →
      k ∉ mapKeys (tick s p).1.loaded ∧ ((tick s p).2.unloadKeys).count k = 1) ∧
    (k ∉ mapKeys s.loaded → ((tick s p).2.unloadKeys).count k = 0) := by
  obtain ⟨hu, t, ht1, ht2, ht3⟩ := tick_loaded_unload_decomp s p hseed
  have hcnt := count_filterNot_inR s.loaded (tickCenter p).1 (tickCenter p).2
    s.removeRadius k hnd
  refine ⟨?_, ?_, ?_⟩
  · intro hmem hdist
    have hkey : keyInRadius k (tickCenter p).1 (tickCenter p).2 s.removeRadius = true := by
      unfold keyInRadius isInRadius
      exact decide_eq_true hdist
    constructor
    · rw [ht1]
      apply (dequeueApply_mem_loaded t _ _ k).1
      rw [ht2]
      exact (mem_mapKeys_filter_inR s.loaded _ _ _ k).mpr ⟨hmem, hkey⟩
    · rw [hu]
      intro hin
      rw [if_neg (fun hc => by rw [hkey] at hc; exact Bool.noConfusion hc.2)] at hcnt
      exact (List.count_eq_zero.mp hcnt) hin
  · intro hmem hdist
    have hkey : keyInRadius k (tickCenter p).1 (tickCenter p).2 s.removeRadius = false := by
      unfold keyInRadius isInRadius
      exact decide_eq_false (by omega)
    constructor
    · rw [ht1]
      apply (dequeueApply_mem_loaded t _ _ k).2
      · rw [ht3]
        exact hkey
      · rw [ht2]
        intro hin
        have hthis := (mem_mapKeys_filter_inR s.loaded _ _ _ k).mp hin
        rw [hkey] at hthis
        exact Bool.noConfusion hthis.2
    · rw [hu, hcnt, if_pos ⟨hmem, hkey⟩]
  · intro hnm
    rw [hu, hcnt, if_neg (fun hc => hnm hc.1)]

/-- Chunk manager with activeRadius 0, removeRadius 1 for the C6 scenario. -/
def c6Manager : CMState :=
  (mkChunkManager (some 0) (some 1)).toOption.getD ⟨0, 0, [], [], [], [], none, none⟩

def c6Response : MeshWorkerResponse := ⟨"0,0", 0, 0, [], [], [], [], 0, 0, none⟩

/-- State after requesting chunk 0,0 and applying its worker response:
chunk 0,0 is loaded. -/
def c6LoadedState : CMState :=
  (tick (tick c6Manager ⟨0, 0, "demo", []⟩).1 ⟨0, 0, "demo", [c6Response]⟩).1

def c6SeedChangeParams : TickParams := ⟨0, 0, "other", []⟩

/-- Counterexample to claim C6 as stated: chunk 0,0 has been applied and
is loaded, the next tick keeps the player at the center so the Chebyshev
distance 0 does not exceed removeRadius 1, yet the chunk is reported in
unloadKeys and dropped from loaded, because that tick changes the seed. -/
theorem tick_loaded_lifecycle_counterexample :
    "0,0" ∈ mapKeys c6LoadedState.loaded ∧
    chebyshevDistance (parseChunkKey "0,0").1 (parseChunkKey "0,0").2
      (tickCenter c6SeedChangeParams).1 (tickCenter c6SeedChangeParams).2 ≤
      c6LoadedState.removeRadius ∧
    "0,0" ∈ (tick c6LoadedState c6SeedChangeParams).2.unloadKeys ∧
    "0,0" ∉ mapKeys (tick c6LoadedState c6SeedChangeParams).1.loaded := by
  refine ⟨by decide, by decide, by decide, by decide⟩

def c6WitnessParams : TickParams := ⟨32, 0, "demo", []⟩

/-- Witness for the amended C6 at the loaded state: a same-seed tick that
moves the player to x = 32 puts chunk 0,0 at distance 2 beyond
removeRadius 1, so the chunk leaves loaded and is reported exactly once. -/
theorem tick_loaded_lifecycle_witness :
    "0,0" ∉ mapKeys (tick c6LoadedState c6WitnessParams).1.loaded ∧
    ((tick c6LoadedState c6WitnessParams).2.unloadKeys).count "0,0" = 1 :=
  (tick_loaded_lifecycle c6LoadedState c6WitnessParams "0,0" (by decide) (by decide)).2.1
    (by decide) (by decide)

/-! ### src/world/getVoxel.ts

The per-column SurfaceProfile is computed from external noise libraries
(alea and simplex-noise, dependencies outside this repository), so the
profile function is a parameter; everything downstream of the profile -
the village structures, the material column and the solidity predicate -
mirrors the source. -/

def VOXEL_AIR : ℕ := 0

def VOXEL_GRASS : ℕ := 1

def VOXEL_DIRT : ℕ := 2

def VOXEL_STONE : ℕ := 3

def DIRT_LAYER_DEPTH : ℤ := 3

structure SurfaceProfile where
  surfaceHeight : ℤ
  baseHeight : ℤ
  isRiver : Bool
  isVillage : Bool
  isVillageRoad : Bool
  localX : ℤ
  localZ : ℤ
  villageCenterX : ℤ
  villageCenterZ : ℤ
deriving DecidableEq, Repr

inductive DoorSide where
  | south
  | west
deriving DecidableEq, Repr

structure HutTemplate where
  offsetX : ℤ
  offsetZ : ℤ
  sizeX : ℤ
  sizeZ : ℤ
  door : DoorSide
deriving DecidableEq, Repr

def HUT_TEMPLATES : List HutTemplate :=
  [⟨-6, -4, 5, 5, DoorSide.south⟩, ⟨6, 3, 4, 6, DoorSide.west⟩]

/-- The body of the hut loop in getVillageStructureVoxel for one hut:
none means continue with the next template, some v means return v. -/
def hutVoxel (profile : SurfaceProfile) (y : ℤ) (hut : HutTemplate) : Option ℕ :=
  let wallBottom := profile.surfaceHeight + 1
  let wallTop := profile.surfaceHeight + 3
  let roofY := profile.surfaceHeight + 4
  let centerX := profile.villageCenterX + hut.offsetX
  let centerZ := profile.villageCenterZ + hut.offsetZ
  let minX := centerX - Int.fdiv hut.sizeX 2
  let maxX := minX + hut.sizeX - 1
  let minZ := centerZ - Int.fdiv hut.sizeZ 2
  let maxZ := minZ + hut.sizeZ - 1
  if ¬(profile.localX ≥ minX ∧ profile.localX ≤ maxX ∧
      profile.localZ ≥ minZ ∧ profile.localZ ≤ maxZ) then none
  else if y = profile.surfaceHeight then some VOXEL_STONE
  else if y > roofY then some VOXEL_AIR
  else if y = roofY then some VOXEL_DIRT
  else if y < wallBottom ∨ y > wallTop then none
  else if ¬(profile.localX = minX ∨ profile.localX = maxX ∨
      profile.localZ = minZ ∨ profile.localZ = maxZ) then some VOXEL_AIR
  else if ((hut.door = DoorSide.south ∧ profile.localZ = maxZ ∧
        profile.localX = Int.fdiv (minX + maxX) 2) ∨
      (hut.door = DoorSide.west ∧ profile.localX = minX ∧
        profile.localZ = Int.fdiv (minZ + maxZ) 2)) ∧
      y ≤ wallBottom + 1 then some VOXEL_AIR
  else some VOXEL_STONE

def getVillageStructureVoxel (profile : SurfaceProfile) (y : ℤ) : Option ℕ :=
  if ¬profile.isVillage then none
  else HUT_TEMPLATES.findSome? (hutVoxel profile y)

/-- getVoxel as a function of the profile function sp, mirroring the
source column-material logic. -/
def getVoxel (sp : String → ℤ → ℤ → SurfaceProfile) (seedStr : String) (x y z : ℤ) : ℕ :=
  let profile := sp seedStr x z
  if y < profile.surfaceHeight then
    if y ≥ profile.surfaceHeight - DIRT_LAYER_DEPTH then VOXEL_DIRT else VOXEL_STONE
  else
    match getVillageStructureVoxel profile y with
    | some v => v
    | none =>
      if y > profile.surfaceHeight then VOXEL_AIR
      else if y = profile.surfaceHeight then
        if profile.isRiver then VOXEL_DIRT
        else if profile.isVillageRoad then VOXEL_STONE
        else if profile.isVillage then VOXEL_DIRT
        else VOXEL_GRASS
      else VOXEL_DIRT

def getSurfaceHeight (sp : String → ℤ → ℤ → SurfaceProfile) (seedStr : String)
    (x z : ℤ) : ℤ :=
  (sp seedStr x z).surfaceHeight

def isSolidTerrainVoxel (sp : String → ℤ → ℤ → SurfaceProfile) (seedStr : String)
    (x y z : ℤ) : Bool :=
  decide (y ≤ getSurfaceHeight sp seedStr x z)

/-- Claim C10: the solidity predicate is true exactly when y is at most
the surface height, ignoring village structures; in particular every
cell with y in the wall or roof band above the surface where getVoxel
returns Stone or Dirt is reported as not solid. -/
theorem isSolidTerrainVoxel_ignores_structures (sp : String → ℤ → ℤ → SurfaceProfile)
    (seedStr : String) (x y z : ℤ) :
    (isSolidTerrainVoxel sp seedStr x y z = true ↔ y ≤ getSurfaceHeight sp seedStr x z) ∧
    (getSurfaceHeight sp seedStr x z + 1 ≤ y → y ≤ getSurfaceHeight sp seedStr x z + 4 →
      (getVoxel sp seedStr x y z = VOXEL_STONE ∨ getVoxel sp seedStr x y z = VOXEL_DIRT) →
      isSolidTerrainVoxel sp seedStr x y z = false) := by
  constructor
  · exact decide_eq_true_iff
  · intro h1 _ _
    unfold isSolidTerrainVoxel
    exact decide_eq_false (by omega)

/-- A concrete village profile: surface height 20, village on, with the
cell at local coordinates (-8, -6) lying on the boundary of the first
hut template (footprint x in [-8, -4], z in [-6, -2]) away from its
south door; at y = 21 the wall produces Stone. -/
def c10Profile : SurfaceProfile := ⟨20, 20, false, true, false, -8, -6, 0, 0⟩

def c10ProfileFun : String → ℤ → ℤ → SurfaceProfile := fun _ _ _ => c10Profile

/-- Witness for C10: the hut wall cell at y = 21 (surface 20) holds Stone
by getVoxel yet is reported as not solid. -/
theorem isSolidTerrainVoxel_ignores_structures_witness :
    isSolidTerrainVoxel c10ProfileFun "seed" 0 21 0 = false :=
  (isSolidTerrainVoxel_ignores_structures c10ProfileFun "seed" 0 21 0).2
    (by decide) (by decide) (Or.inl (by decide))

/-! ### src/world/buildChunkVoxels.ts

The chunk size constants come from the absent chunkConstants.ts, so the
builder is parameterized by chunkSize and chunkHeight with the padded
dimensions chunkSize + 2 and chunkHeight + 2 fixed by the spec data
model. The terrain function gv stands for the imported getVoxel, whose
VoxelId values fit a Uint8Array cell; the store truncates modulo 256
like a Uint8Array write. -/

def chunkIndexOf (chunkSize : ℕ) (px py pz : ℕ) : ℕ :=
  py * ((chunkSize + 2) * (chunkSize + 2)) + pz * (chunkSize + 2) + px

def buildCell (chunkSize : ℕ) (gv : String → ℤ → ℤ → ℤ → ℕ) (seedStr : String)
    (cx cz : ℤ) (isDestroyed : ℤ → ℤ → ℤ → Bool) (py pz px : ℕ) : ℕ :=
  if isDestroyed (cx * chunkSize + ((px : ℤ) - 1)) ((py : ℤ) - 1)
      (cz * chunkSize + ((pz : ℤ) - 1)) then VOXEL_AIR
  else gv seedStr (cx * chunkSize + ((px : ℤ) - 1)) ((py : ℤ) - 1)
      (cz * chunkSize + ((pz : ℤ) - 1)) % 256

def buildChunkVoxelsWithOverrides (chunkSize chunkHeight : ℕ)
    (gv : String → ℤ → ℤ → ℤ → ℕ) (seedStr : String) (cx cz : ℤ)
    (isDestroyed : ℤ → ℤ → ℤ → Bool) : List ℕ :=
  ((List.range (chunkHeight + 2)).map (fun py =>
    ((List.range (chunkSize + 2)).map (fun pz =>
      (List.range (chunkSize + 2)).map (fun px =>
        buildCell chunkSize gv seedStr cx cz isDestroyed py pz px))).flatten)).flatten

theorem length_flatten_uniform {α : Type} (L : List (List α)) (m : ℕ)
    (h : ∀ l ∈ L, l.length = m) : L.flatten.length = L.length * m := by
  induction L with
  | nil => simp
  | cons l rest ih =>
    rw [List.flatten_cons, List.length_append, h l (List.mem_cons_self l rest),
      ih (fun x hx => h x (List.mem_cons_of_mem l hx)), List.length_cons]
    ring

theorem getD_flatten_uniform {α : Type} (L : List (List α)) (m i j : ℕ) (d : α)
    (h : ∀ l ∈ L, l.length = m) (hi : i < L.length) (hj : j < m) :
    L.flatten.getD (i * m + j) d = (L.getD i []).getD j d := by
  induction L generalizing i with
  | nil => exact absurd hi (by simp)
  | cons l rest ih =>
    cases i with
    | zero =>
      rw [List.flatten_cons, Nat.zero_mul, Nat.zero_add]
      have hl : j < l.length := by
        rw [h l (List.mem_cons_self l rest)]
        exact hj
      rw [List.getD_eq_getElem?_getD, List.getElem?_append_left hl,
        ← List.getD_eq_getElem?_getD]
      rfl
    | succ i2 =>
      rw [List.flatten_cons]
      have hlen : l.length = m := h l (List.mem_cons_self l rest)
      have hoff : (i2 + 1) * m + j = l.length + (i2 * m + j) := by
        rw [hlen]
        ring
      rw [hoff, List.getD_eq_getElem?_getD, List.getElem?_append_right (by omega),
        Nat.add_sub_cancel_left, ← List.getD_eq_getElem?_getD]
      have hi2 : i2 < rest.length := by
        rw [List.length_cons] at hi
        omega
      exact ih i2 (fun x hx => h x (List.mem_cons_of_mem l hx)) hi2

theorem getD_map_range {α : Type} (n i : ℕ) (f : ℕ → α) (d : α) (hi : i < n) :
    ((List.range n).map f).getD i d = f i := by
  have hlen : i < ((List.range n).map f).length := by
    rw [List.length_map, List.length_range]
    exact hi
  rw [List.getD_eq_getElem _ _ hlen, List.getElem_map, List.getElem_range]

/-- Claim C3: every padded cell of the built buffer holds Air when the
destruction predicate fires at the corresponding world coordinates and
the terrain voxel otherwise, with worldX = cx*chunkSize + (px-1),
worldY = py-1, worldZ = cz*chunkSize + (pz-1). -/
theorem buildChunkVoxels_cell (chunkSize chunkHeight : ℕ)
    (gv : String → ℤ → ℤ → ℤ → ℕ) (seedStr : String) (cx cz : ℤ)
    (isDestroyed : ℤ → ℤ → ℤ → Bool) (px py pz : ℕ)
    (hx : px < chunkSize + 2) (hy : py < chunkHeight + 2) (hz : pz < chunkSize + 2)
    (h256 : ∀ s x y z, gv s x y z < 256) :
    (buildChunkVoxelsWithOverrides chunkSize chunkHeight gv seedStr cx cz
        isDestroyed).getD (chunkIndexOf chunkSize px py pz) 0 =
      if isDestroyed (cx * chunkSize + ((px : ℤ) - 1)) ((py : ℤ) - 1)
          (cz * chunkSize + ((pz : ℤ) - 1)) then VOXEL_AIR
      else gv seedStr (cx * chunkSize + ((px : ℤ) - 1)) ((py : ℤ) - 1)
          (cz * chunkSize + ((pz : ℤ) - 1)) := by
  have hsliceLen : ∀ l ∈ (List.range (chunkHeight + 2)).map (fun py =>
      ((List.range (chunkSize + 2)).map (fun pz =>
        (List.range (chunkSize + 2)).map (fun px =>
          buildCell chunkSize gv seedStr cx cz isDestroyed py pz px))).flatten),
      l.length = (chunkSize + 2) * (chunkSize + 2) := by
    intro l hl
    obtain ⟨py0, _, rfl⟩ := List.mem_map.mp hl
    rw [length_flatten_uniform _ (chunkSize + 2)
      (by intro r hr; obtain ⟨pz0, _, rfl⟩ := List.mem_map.mp hr; simp)]
    simp
  have hidx : chunkIndexOf chunkSize px py pz =
      py * ((chunkSize + 2) * (chunkSize + 2)) + (pz * (chunkSize + 2) + px) := by
    rw [chunkIndexOf]
    ring
  have hj : pz * (chunkSize + 2) + px < (chunkSize + 2) * (chunkSize + 2) := by
    have h1 : pz + 1 ≤ chunkSize + 2 := hz
    calc pz * (chunkSize + 2) + px < pz * (chunkSize + 2) + (chunkSize + 2) := by omega
      _ = (pz + 1) * (chunkSize + 2) := by ring
      _ ≤ (chunkSize + 2) * (chunkSize + 2) := Nat.mul_le_mul_right _ h1
  rw [buildChunkVoxelsWithOverrides, hidx,
    getD_flatten_uniform _ _ _ _ _ hsliceLen (by simpa using hy) hj,
    getD_map_range _ _ _ _ hy,
    getD_flatten_uniform _ _ _ _ _
      (by intro r hr; obtain ⟨pz0, _, rfl⟩ := List.mem_map.mp hr; simp) (by simpa using hz) hx,
    getD_map_range _ _ _ _ hz, getD_map_range _ _ _ _ hx, buildCell]
  split
  · rfl
  · exact Nat.mod_eq_of_lt (h256 _ _ _ _)

def c3Gv : String → ℤ → ℤ → ℤ → ℕ := fun _ _ _ _ => VOXEL_STONE

def c3Destroyed : ℤ → ℤ → ℤ → Bool := fun x y z => decide (x = 0 ∧ y = 0 ∧ z = 0)

/-- Witness for C3 with chunkSize = chunkHeight = 2 at the inner cell
(1,1,1) of chunk (0,0): its world coordinates are (0,0,0), which the
destruction predicate marks, so the cell holds Air. -/
theorem buildChunkVoxels_cell_witness :
    (buildChunkVoxelsWithOverrides 2 2 c3Gv "seed" 0 0 c3Destroyed).getD
      (chunkIndexOf 2 1 1 1) 0 = VOXEL_AIR := by
  have h := buildChunkVoxels_cell 2 2 c3Gv "seed" 0 0 c3Destroyed 1 1 1
    (by decide) (by decide) (by decide) (fun _ _ _ _ => show VOXEL_STONE < 256 by decide)
  rw [h]
  decide

/-! ### src/engine/greedyMesh.ts

Vertex coordinates are natural numbers cast to rationals, colors are the
fixed rational triples of the source, indices are naturals; building the
final Uint32Array truncates each index modulo 2 to the 32 and building
the Float32Arrays preserves lengths (no claim inspects stored float
values). The while loops of the rectangle merge become fuel recursion
with fuel sizeU, enough because every iteration advances u by at least
one. -/

structure PaddedChunkDims where
  x : ℕ
  y : ℕ
  z : ℕ
deriving DecidableEq, Repr

structure GreedyMeshPayload where
  positions : List ℚ
  normals : List ℚ
  colors : List ℚ
  indices : List ℕ
  quadCount : ℕ
  indexCount : ℕ
deriving DecidableEq

def indexOfPadded (px py pz : ℕ) (dims : PaddedChunkDims) : ℕ :=
  py * dims.x * dims.z + pz * dims.x + px

def colorForVoxel (id : ℕ) : ℚ × ℚ × ℚ :=
  if id = VOXEL_GRASS then
    (Rat.mk' 9 25 (by decide) (by decide), Rat.mk' 18 25 (by decide) (by decide),
      Rat.mk' 31 100 (by decide) (by decide))
  else if id = VOXEL_DIRT then
    (Rat.mk' 49 100 (by decide) (by decide), Rat.mk' 7 20 (by decide) (by decide),
      Rat.mk' 11 50 (by decide) (by decide))
  else if id = VOXEL_STONE then
    (Rat.mk' 14 25 (by decide) (by decide), Rat.mk' 14 25 (by decide) (by decide),
      Rat.mk' 29 50 (by decide) (by decide))
  else (0, 0, 0)

structure MeshBuild where
  positions : List ℚ
  normals : List ℚ
  colors : List ℚ
  indices : List ℕ
  quadCount : ℕ

def emptyMeshBuild : MeshBuild := ⟨[], [], [], [], 0⟩

/-- The quad origin and the two edge vectors of emitQuad, by axis. -/
def quadGeometry (d w u v width height : ℕ) :
    (ℕ × ℕ × ℕ) × (ℕ × ℕ × ℕ) × (ℕ × ℕ × ℕ) :=
  if d = 0 then ((w, u, v), (0, width, 0), (0, 0, height))
  else if d = 1 then ((v, w, u), (0, 0, width), (height, 0, 0))
  else ((u, v, w), (width, 0, 0), (0, height, 0))

def emitQuad (d w u v width height : ℕ) (normalSign : ℤ) (voxelId : ℕ)
    (st : MeshBuild) : MeshBuild :=
  let g := quadGeometry d w u v width height
  let x0 := g.1.1
  let y0 := g.1.2.1
  let z0 := g.1.2.2
  let du := g.2.1
  let dv := g.2.2
  let nx : ℚ := if d = 0 then (normalSign : ℚ) else 0
  let ny : ℚ := if d = 1 then (normalSign : ℚ) else 0
  let nz : ℚ := if d = 2 then (normalSign : ℚ) else 0
  let c := colorForVoxel voxelId
  let base := st.positions.length / 3
  { positions := st.positions ++
      ([x0, y0, z0,
        x0 + du.1, y0 + du.2.1, z0 + du.2.2,
        x0 + du.1 + dv.1, y0 + du.2.1 + dv.2.1, z0 + du.2.2 + dv.2.2,
        x0 + dv.1, y0 + dv.2.1, z0 + dv.2.2].map (fun n : ℕ => (n : ℚ))),
    normals := st.normals ++ [nx, ny, nz, nx, ny, nz, nx, ny, nz, nx, ny, nz],
    colors := st.colors ++
      [c.1, c.2.1, c.2.2, c.1, c.2.1, c.2.2, c.1, c.2.1, c.2.2, c.1, c.2.1, c.2.2],
    indices := st.indices ++
      (if normalSign > 0 then [base, base + 1, base + 2, base, base + 2, base + 3]
       else [base, base + 2, base + 1, base, base + 3, base + 2]),
    quadCount := st.quadCount + 1 }

/-- The halo-aware sampler: any coordinate outside the padded buffer
reads as Air. -/
def sample (voxels : List ℕ) (dims : PaddedChunkDims) (lx ly lz : ℤ) : ℕ :=
  if lx + 1 < 0 ∨ ly + 1 < 0 ∨ lz + 1 < 0 ∨ lx + 1 ≥ (dims.x : ℤ) ∨
      ly + 1 ≥ (dims.y : ℤ) ∨ lz + 1 ≥ (dims.z : ℤ) then VOXEL_AIR
  else voxels.getD (indexOfPadded (lx + 1).toNat (ly + 1).toNat (lz + 1).toNat dims) 0

/-- The voxel pair straddling slice plane w at mask position (u, v). -/
def maskCoords (d w u v : ℕ) : (ℤ × ℤ × ℤ) × (ℤ × ℤ × ℤ) :=
  if d = 0 then (((w : ℤ) - 1, u, v), ((w : ℤ), u, v))
  else if d = 1 then (((v : ℤ), (w : ℤ) - 1, u), ((v : ℤ), w, u))
  else (((u : ℤ), v, (w : ℤ) - 1), ((u : ℤ), v, w))

def maskAt (voxels : List ℕ) (dims : PaddedChunkDims) (d w u v : ℕ) : ℤ :=
  let mc := maskCoords d w u v
  let a := sample voxels dims mc.1.1 mc.1.2.1 mc.1.2.2
  let b := sample voxels dims mc.2.1 mc.2.2.1 mc.2.2.2
  if (a ≠ VOXEL_AIR) ↔ (b ≠ VOXEL_AIR) then 0
  else if a ≠ VOXEL_AIR then (a : ℤ)
  else -(b : ℤ)

def computeMask (voxels : List ℕ) (dims : PaddedChunkDims) (d w sizeU sizeV : ℕ) :
    List ℤ :=
  ((List.range sizeV).map (fun v =>
    (List.range sizeU).map (fun u => maskAt voxels dims d w u v))).flatten

def growWidthAux (mask : List ℤ) (sv : ℤ) (start sizeU u : ℕ) : ℕ → ℕ → ℕ
  | 0, width => width
  | fuel + 1, width =>
    if u + width < sizeU ∧ mask.getD (start + width) 0 = sv then
      growWidthAux mask sv start sizeU u fuel (width + 1)
    else width

def growWidth (mask : List ℤ) (sv : ℤ) (start sizeU u : ℕ) : ℕ :=
  growWidthAux mask sv start sizeU u sizeU 1

def rowMatches (mask : List ℤ) (sv : ℤ) (rowStart width : ℕ) : Bool :=
  (List.range width).all (fun k => decide (mask.getD (rowStart + k) 0 = sv))

def growHeightAux (mask : List ℤ) (sv : ℤ) (sizeU sizeV u v width : ℕ) : ℕ → ℕ → ℕ
  | 0, height => height
  | fuel + 1, height =>
    if v + height < sizeV ∧ rowMatches mask sv ((v + height) * sizeU + u) width = true then
      growHeightAux mask sv sizeU sizeV u v width fuel (height + 1)
    else height

def growHeight (mask : List ℤ) (sv : ℤ) (sizeU sizeV u v width : ℕ) : ℕ :=
  growHeightAux mask sv sizeU sizeV u v width sizeV 1

def zeroRow (mask : List ℤ) (rowStart width : ℕ) : List ℤ :=
  (List.range width).foldl (fun m k => m.set (rowStart + k) 0) mask

def zeroRect (mask : List ℤ) (v u width height sizeU : ℕ) : List ℤ :=
  (List.range height).foldl (fun m y => zeroRow m ((v + y) * sizeU + u) width) mask

/-- The inner while loop over u of the greedy rectangle merge; the fuel
starts at sizeU, enough because u advances by width of at least 1 each
iteration. -/
def mergeRowAux (d w sizeU sizeV v : ℕ) : ℕ → ℕ → List ℤ × MeshBuild → List ℤ × MeshBuild
  | 0, _, ms => ms
  | fuel + 1, u, ms =>
    if u < sizeU then
      let start := v * sizeU + u
      let sv := ms.1.getD start 0
      if sv = 0 then mergeRowAux d w sizeU sizeV v fuel (u + 1) ms
      else
        let width := growWidth ms.1 sv start sizeU u
        let height := growHeight ms.1 sv sizeU sizeV u v width
        mergeRowAux d w sizeU sizeV v fuel (u + width)
          (zeroRect ms.1 v u width height sizeU,
           emitQuad d w u v width height (if sv > 0 then 1 else -1) sv.natAbs ms.2)
    else ms

def mergeSlice (d w sizeU sizeV : ℕ) (mask : List ℤ) (st : MeshBuild) : MeshBuild :=
  ((List.range sizeV).foldl (fun ms v => mergeRowAux d w sizeU sizeV v sizeU 0 ms)
    (mask, st)).2

def innerDim (dims : PaddedChunkDims) (i : ℕ) : ℕ :=
  if i = 0 then dims.x - 2 else if i = 1 then dims.y - 2 else dims.z - 2

def axisU (d : ℕ) : ℕ := if d = 0 then 1 else if d = 1 then 2 else 0

def axisV (d : ℕ) : ℕ := if d = 0 then 2 else if d = 1 then 0 else 1

def runAxis (voxels : List ℕ) (dims : PaddedChunkDims) (st : MeshBuild) (d : ℕ) :
    MeshBuild :=
  (List.range (innerDim dims d + 1)).foldl
    (fun st w => mergeSlice d w (innerDim dims (axisU d)) (innerDim dims (axisV d))
      (computeMask voxels dims d w (innerDim dims (axisU d)) (innerDim dims (axisV d))) st)
    st

def greedyMesh (voxels : List ℕ) (dims : PaddedChunkDims) :
    Except String GreedyMeshPayload :=
  if dims.x < 3 ∨ dims.y < 3 ∨ dims.z < 3 then
    Except.error "greedyMesh requires padded dimensions >= 3 on all axes"
  else
    Except.ok
      (let st := [0, 1, 2].foldl (runAxis voxels dims) emptyMeshBuild
       ⟨st.positions, st.normals, st.colors,
        st.indices.map (fun i => i % 4294967296), st.quadCount, st.indices.length⟩)

/-! ### Claims C2, C4, C8 about greedyMesh -/

/-- The build invariant: each of the three vertex attribute buffers has
12 entries per quad (4 vertices of 3 components), there are 6 indices
per quad, and every index addresses one of the 4 vertices of an emitted
quad. -/
def MeshInv (st : MeshBuild) : Prop :=
  st.positions.length = 12 * st.quadCount ∧
  st.normals.length = 12 * st.quadCount ∧
  st.colors.length = 12 * st.quadCount ∧
  st.indices.length = 6 * st.quadCount ∧
  ∀ i ∈ st.indices, i < 4 * st.quadCount

theorem emitQuad_inv (d w u v width height : ℕ) (normalSign : ℤ) (voxelId : ℕ)
    (st : MeshBuild) (h : MeshInv st) :
    MeshInv (emitQuad d w u v width height normalSign voxelId st) := by
  obtain ⟨h1, h2, h3, h4, h5⟩ := h
  have hbase : st.positions.length / 3 = 4 * st.quadCount := by
    rw [h1]
    omega
  simp only [emitQuad, MeshInv]
  refine ⟨?_, ?_, ?_, ?_, ?_⟩
  · simp only [List.length_append, List.length_map, List.length_cons, List.length_nil, h1]
    omega
  · simp only [List.length_append, List.length_cons, List.length_nil, h2]
    omega
  · simp only [List.length_append, List.length_cons, List.length_nil, h3]
    omega
  · split <;>
      simp only [List.length_append, List.length_cons, List.length_nil, h4] <;>
      omega
  · intro i hi
    rw [List.mem_append] at hi
    rcases hi with hi | hi
    · have := h5 i hi
      omega
    · rw [hbase] at hi
      split at hi <;> simp only [List.mem_cons, List.not_mem_nil, or_false] at hi <;>
        rcases hi with rfl | rfl | rfl | rfl | rfl | rfl <;> omega

theorem foldl_inv {σ α : Type} (P : σ → Prop) (f : σ → α → σ)
    (hf : ∀ s a, P s → P (f s a)) : ∀ (l : List α) (s : σ), P s → P (l.foldl f s) := by
  intro l
  induction l with
  | nil => exact fun s h => h
  | cons a rest ih => exact fun s h => ih _ (hf s a h)

theorem mergeRowAux_inv (d w sizeU sizeV v : ℕ) :
    ∀ fuel u ms, MeshInv ms.2 → MeshInv (mergeRowAux d w sizeU sizeV v fuel u ms).2 := by
  intro fuel
  induction fuel with
  | zero => exact fun u ms h => h
  | succ fuel ih =>
    intro u ms h
    simp only [mergeRowAux]
    split
    · split
      · exact ih _ _ h
      · exact ih _ _ (emitQuad_inv _ _ _ _ _ _ _ _ _ h)
    · exact h

theorem mergeSlice_inv (d w sizeU sizeV : ℕ) (mask : List ℤ) (st : MeshBuild)
    (h : MeshInv st) : MeshInv (mergeSlice d w sizeU sizeV mask st) := by
  exact foldl_inv (fun ms : List ℤ × MeshBuild => MeshInv ms.2)
    (fun ms v0 => mergeRowAux d w sizeU sizeV v0 sizeU 0 ms)
    (fun ms v0 hm => mergeRowAux_inv d w sizeU sizeV v0 sizeU 0 ms hm)
    (List.range sizeV) (mask, st) h

theorem runAxis_inv (voxels : List ℕ) (dims : PaddedChunkDims) (st : MeshBuild)
    (d : ℕ) (h : MeshInv st) : MeshInv (runAxis voxels dims st d) := by
  exact foldl_inv MeshInv _
    (fun s w hm => mergeSlice_inv d w _ _ _ s hm)
    (List.range (innerDim dims d + 1)) st h

theorem meshBuild_inv (voxels : List ℕ) (dims : PaddedChunkDims) :
    MeshInv ([0, 1, 2].foldl (runAxis voxels dims) emptyMeshBuild) := by
  refine foldl_inv MeshInv (runAxis voxels dims)
    (fun s d hm => runAxis_inv voxels dims s d hm) [0, 1, 2] emptyMeshBuild ?_
  refine ⟨rfl, rfl, rfl, rfl, ?_⟩
  intro i hi
  exact absurd hi (List.not_mem_nil i)

/-- Claim C4: for every buffer and dims accepted by greedyMesh, the
returned payload has equal positions, normals and colors lengths,
indices of length quadCount times 6, and every index below the vertex
count positions.length / 3. -/
theorem greedyMesh_payload_invariants (voxels : List ℕ) (dims : PaddedChunkDims)
    (p : GreedyMeshPayload) (h : greedyMesh voxels dims = Except.ok p) :
    p.positions.length = p.normals.length ∧ p.normals.length = p.colors.length ∧
    p.indices.length = p.quadCount * 6 ∧
    ∀ i ∈ p.indices, i < p.positions.length / 3 := by
  have hinv := meshBuild_inv voxels dims
  unfold greedyMesh at h
  split at h
  · exact Except.noConfusion h
  · cases h
    obtain ⟨h1, h2, h3, h4, h5⟩ := hinv
    refine ⟨?_, ?_, ?_, ?_⟩
    · simp only [h1, h2]
    · simp only [h2, h3]
    · simp only [List.length_map, h4]
      omega
    · intro i hi
      simp only [List.mem_map] at hi
      obtain ⟨j, hj, rfl⟩ := hi
      have hjlt := h5 j hj
      have hmod : j % 4294967296 ≤ j := Nat.mod_le j 4294967296
      simp only [h1]
      omega

def c2Dims : PaddedChunkDims := ⟨5, 5, 5⟩

/-- The padded 5x5x5 buffer whose only solid cell is the inner voxel at
local (1,1,1), padded (2,2,2). -/
def c2Voxels : List ℕ :=
  (List.range 125).map
    (fun i => if i = indexOfPadded 2 2 2 c2Dims then VOXEL_STONE else VOXEL_AIR)

/-- Claim C2: the single isolated voxel in a 5x5x5 padded buffer meshes
to exactly 6 quads and 36 indices. -/
theorem greedyMesh_single_voxel :
    ∃ p, greedyMesh c2Voxels c2Dims = Except.ok p ∧
      p.quadCount = 6 ∧ p.indexCount = 36 :=
  ⟨_, rfl, by decide, by decide⟩

/-- Witness for C4 at the single-voxel buffer. -/
theorem greedyMesh_payload_invariants_witness :
    ∃ p, greedyMesh c2Voxels c2Dims = Except.ok p ∧
      (p.positions.length = p.normals.length ∧ p.normals.length = p.colors.length ∧
        p.indices.length = p.quadCount * 6 ∧
        ∀ i ∈ p.indices, i < p.positions.length / 3) :=
  ⟨_, rfl, greedyMesh_payload_invariants c2Voxels c2Dims _ rfl⟩

/-- Claim C8: greedyMesh raises its domain error exactly when some
padded dimension is below 3; with all dimensions at least 3 and a buffer
of matching size it returns a payload normally. -/
theorem greedyMesh_dims_guard (voxels : List ℕ) (dims : PaddedChunkDims)
    (hlen : voxels.length = dims.x * dims.y * dims.z) :
    ((∃ e, greedyMesh voxels dims = Except.error e) ↔
      (dims.x < 3 ∨ dims.y < 3 ∨ dims.z < 3)) ∧
    (3 ≤ dims.x ∧ 3 ≤ dims.y ∧ 3 ≤ dims.z →
      ∃ p, greedyMesh voxels dims = Except.ok p) := by
  constructor
  · unfold greedyMesh
    split
    next hc => exact ⟨fun _ => hc, fun _ => ⟨_, rfl⟩⟩
    next hc =>
      constructor
      · rintro ⟨e, he⟩
        exact Except.noConfusion he
      · intro hlt
        exact absurd hlt hc
  · intro hge
    unfold greedyMesh
    rw [if_neg (by omega)]
    exact ⟨_, rfl⟩

def c8Voxels : List ℕ := List.replicate 50 VOXEL_AIR

/-- Witness for C8: padded dims (2,5,5) with a matching 50-cell buffer
raise the domain error. -/
theorem greedyMesh_dims_guard_witness :
    ∃ e, greedyMesh c8Voxels ⟨2, 5, 5⟩ = Except.error e :=
  (greedyMesh_dims_guard c8Voxels ⟨2, 5, 5⟩ (by decide)).1.mpr (Or.inl (by decide))

end VoxelWorld
